import Mathlib

/-
Verification of the TrafficCue server's real-time relay (the WebSocket
publish/subscribe mechanism in the main server file).

The embedding mirrors the source code:
- wsSubscribers, a mutable Record from session codes to arrays of
  subscriber connections, becomes a partial map from String to lists of
  connection identifiers;
- the per-connection mutable local variable advertising (initially the
  empty string) becomes a per-connection component of the server state;
- onMessage and onClose become a step function on that state which also
  returns the list of outbound sends (recipient, message);
- randomCode becomes a function of an explicit randomness source, one
  draw from 36 alternatives per character (floor of random times 36).

Connections are identified by natural numbers: the source compares
connections by reference identity, so distinct connections get distinct
identifiers.
-/

/-- Connections are compared by identity in the source; model them as Nat. -/
abbrev Conn := Nat

/-- The wsSubscribers record: a partial map from codes to subscriber lists.
A JavaScript object has at most one value per key, so a partial map is the
faithful representation. -/
abbrev Directory := String → Option (List Conn)

/-- The character set of randomCode in the source. -/
def characters : String := "ABCDEFGHIJKLMNOPQRSTUVWXYZ0123456789"

/-- The alphabet has 36 characters. -/
def charactersLen : characters.toList.length = 36 := rfl

/-- Embedding of randomCode: each character is characters.charAt of an
independent draw in the range 0..35 (the value of floor of random times 36
in the source); the draws are supplied as an explicit randomness source. -/
def randomCode (rand : Nat → Fin 36) (len : Nat) : String :=
  ⟨(List.range len).map fun i => characters.toList.get (Fin.cast charactersLen.symm (rand i))⟩

/-- JavaScript disjunction on an optional string field: a missing field and
the empty string are both falsy, any other string is returned as is.
Embeds the expression data.code or-else fallback. -/
def jsOr (field : Option String) (fallback : String) : String :=
  match field with
  | none => fallback
  | some s => if s = "" then fallback else s

/-- Inbound relay messages, one constructor per recognized type tag plus a
catch-all for every other tag. The code field of advertise and subscribe is
optional; location carries an opaque payload. -/
inductive ClientMsg where
  | advertise (code : Option String)
  | subscribe (code : Option String)
  | location (loc : String) (route : String)
  | other
deriving DecidableEq

/-- Outbound relay messages as sent by the server code. -/
inductive ServerMsg where
  | welcome
  | advertising (code : String)
  | subscribed (code : String)
  | location (loc : String) (route : String)
  | error (msg : String)
deriving DecidableEq

/-- The relay's whole state: the wsSubscribers directory plus, for every
connection, the value of its advertising local variable. -/
structure ServerState where
  dir : Directory
  adv : Conn → String

/-- The initial state: wsSubscribers is the empty record and every
connection's advertising variable starts as the empty string. -/
def initState : ServerState :=
  { dir := fun _ => none, adv := fun _ => "" }

/-- Embedding of the onMessage handler. Returns the new state and the list
of sends (recipient, message) the handler performs, in order. -/
def onMessage (st : ServerState) (c : Conn) (m : ClientMsg) (rand : Nat → Fin 36) :
    ServerState × List (Conn × ServerMsg) :=
  match m with
  | .advertise mcode =>
      let code := jsOr mcode (randomCode rand 6)
      ({ dir := fun k => if k = code then some ((st.dir code).getD []) else st.dir k,
         adv := fun x => if x = c then code else st.adv x },
       [(c, .advertising code)])
  | .subscribe mcode =>
      match mcode with
      | none => (st, [(c, .error "Invalid or unknown code")])
      | some code =>
          if code = "" then (st, [(c, .error "Invalid or unknown code")])
          else
            match st.dir code with
            | none => (st, [(c, .error "Invalid or unknown code")])
            | some subs =>
                ({ st with dir := fun k => if k = code then some (subs ++ [c]) else st.dir k },
                 [(c, .subscribed code)])
  | .location loc route =>
      (st, (((st.dir (st.adv c)).getD []).filter (fun s => decide (s ≠ c))).map
             fun s => (s, .location loc route))
  | .other => (st, [(c, .error "Unknown message type")])

/-- Embedding of the onClose handler: every entry's list is filtered by
identity against the closing connection, and any entry whose filtered list
is empty is deleted from the record. -/
def onClose (st : ServerState) (c : Conn) : ServerState :=
  { st with dir := fun k =>
      match st.dir k with
      | none => none
      | some subs =>
          if subs.filter (fun s => decide (s ≠ c)) = [] then none
          else some (subs.filter (fun s => decide (s ≠ c))) }

/-- Connection-level events delivered to the handlers: the open event (which
only sends the welcome message), an inbound message together with the
randomness the handler may consume, and the close event. -/
inductive Event where
  | connect (c : Conn)
  | message (c : Conn) (m : ClientMsg) (rand : Nat → Fin 36)
  | disconnect (c : Conn)

/-- One step of the relay: dispatch an event to its handler, returning the
new state and the sends performed. -/
def stepOut (st : ServerState) : Event → ServerState × List (Conn × ServerMsg)
  | .connect c => (st, [(c, .welcome)])
  | .message c m rand => onMessage st c m rand
  | .disconnect c => (onClose st c, [])

/-- The state part of a step. -/
def step (st : ServerState) (e : Event) : ServerState :=
  (stepOut st e).1

/-- The state after processing a sequence of events from the initial state. -/
def run (es : List Event) : ServerState :=
  es.foldl step initState

/-- A state is reachable when some event sequence produces it. -/
def Reachable (st : ServerState) : Prop :=
  ∃ es, run es = st

/-- Folding function recording the resolved code of the most recent
advertise message processed on connection c, starting from the empty
string. -/
def advUpd (c : Conn) (acc : String) (e : Event) : String :=
  match e with
  | .message c2 (.advertise mcode) rand => if c2 = c then jsOr mcode (randomCode rand 6) else acc
  | _ => acc

/-- The resolved code of the most recent advertise message sent on
connection c in the event sequence, or the empty string if there is none. -/
def lastAdvCode (c : Conn) (es : List Event) : String :=
  es.foldl (advUpd c) ""

/-- A fixed randomness source used for concrete evaluations. -/
def rand0 : Nat → Fin 36 := fun _ => 0

/-- Concrete state: connection 0 advertised code A; no subscriber yet. -/
def stA : ServerState :=
  run [ .message 0 (.advertise (some "A")) rand0 ]

/-- Concrete state: connection 0 advertised code A, connection 1 subscribed. -/
def stA1 : ServerState :=
  run [ .message 0 (.advertise (some "A")) rand0,
        .message 1 (.subscribe (some "A")) rand0 ]

/-- Concrete state: connection 0 advertised code A, connection 1 subscribed twice. -/
def stA11 : ServerState :=
  run [ .message 0 (.advertise (some "A")) rand0,
        .message 1 (.subscribe (some "A")) rand0,
        .message 1 (.subscribe (some "A")) rand0 ]

theorem randomCode_length (rand : Nat → Fin 36) (n : Nat) :
    (randomCode rand n).length = n := by
  show ((List.range n).map _).length = n
  simp

theorem randomCode_ne_empty (rand : Nat → Fin 36) : randomCode rand 6 ≠ "" := by
  intro h
  have hl := randomCode_length rand 6
  rw [h] at hl
  simp at hl

theorem jsOr_ne_empty (mcode : Option String) (fallback : String) (h : fallback ≠ "") :
    jsOr mcode fallback ≠ "" := by
  cases mcode with
  | none => exact h
  | some s =>
      by_cases hs : s = "" <;> simp [jsOr, hs, h]

/-- Claim C1: when the connection whose current advertising code is c (a code
with a directory entry) processes a location message, the payload is sent to
every connection in the entry's subscriber list other than the sender and is
never sent to the sender itself. -/
theorem claimC1 (st : ServerState) (c : String) (conn : Conn) (subs : List Conn)
    (loc route : String) (rand : Nat → Fin 36)
    (hadv : st.adv conn = c) (hdir : st.dir c = some subs) :
    (stepOut st (.message conn (.location loc route) rand)).2
      = (subs.filter (fun s => decide (s ≠ conn))).map (fun s => (s, ServerMsg.location loc route))
    ∧ (∀ s, s ∈ subs → s ≠ conn →
        (s, ServerMsg.location loc route) ∈ (stepOut st (.message conn (.location loc route) rand)).2)
    ∧ (∀ m, (conn, m) ∉ (stepOut st (.message conn (.location loc route) rand)).2) := by
  have he : (stepOut st (.message conn (.location loc route) rand)).2
      = (subs.filter (fun s => decide (s ≠ conn))).map
          (fun s => (s, ServerMsg.location loc route)) := by
    simp [stepOut, onMessage, hadv, hdir]
  refine ⟨he, ?_, ?_⟩
  · intro s hs hne
    rw [he]
    exact List.mem_map_of_mem _ (List.mem_filter.mpr ⟨hs, by simpa using hne⟩)
  · intro m hm
    rw [he] at hm
    obtain ⟨s, hsf, heq⟩ := List.mem_map.mp hm
    have hs : s ≠ conn := by
      have := (List.mem_filter.mp hsf).2
      simpa using this
    exact hs (congrArg Prod.fst heq)

theorem claimC1_witness :
    (stepOut stA1 (.message 0 (.location "l" "r") rand0)).2
      = (([1] : List Conn).filter (fun s => decide (s ≠ 0))).map
          (fun s => (s, ServerMsg.location "l" "r")) :=
  (claimC1 stA1 "A" 0 [1] "l" "r" rand0 (by decide) (by decide)).1

/-- Claim C3: a subscribe message whose code field is missing or empty, or
whose code has no directory entry, is answered with the error message
Invalid or unknown code, sends nothing else, and leaves the state unchanged. -/
theorem claimC3 (st : ServerState) (c : Conn) (mcode : Option String) (rand : Nat → Fin 36)
    (h : mcode = none ∨ mcode = some "" ∨ ∃ s, mcode = some s ∧ st.dir s = none) :
    stepOut st (.message c (.subscribe mcode) rand)
      = (st, [(c, ServerMsg.error "Invalid or unknown code")]) := by
  rcases h with h | h | ⟨s, hs, hdir⟩
  · subst h; rfl
  · subst h; simp [stepOut, onMessage]
  · subst hs
    by_cases hs' : s = "" <;> simp [stepOut, onMessage, hs', hdir]

theorem claimC3_witness :
    stepOut initState (.message 5 (.subscribe (some "ZZZZZZ")) rand0)
      = (initState, [(5, ServerMsg.error "Invalid or unknown code")]) :=
  claimC3 initState 5 (some "ZZZZZZ") rand0 (Or.inr (Or.inr ⟨"ZZZZZZ", rfl, rfl⟩))

/-- Claim C5: an advertise message carrying a non-empty client-supplied code
is confirmed with exactly that code (never a generated one), that exact
string becomes a directory key, and it becomes the connection's advertising
code. -/
theorem claimC5 (st : ServerState) (c : Conn) (code : String) (rand : Nat → Fin 36)
    (h : code ≠ "") :
    (stepOut st (.message c (.advertise (some code)) rand)).2
      = [(c, ServerMsg.advertising code)]
    ∧ (step st (.message c (.advertise (some code)) rand)).dir code
      = some ((st.dir code).getD [])
    ∧ (step st (.message c (.advertise (some code)) rand)).adv c = code := by
  refine ⟨?_, ?_, ?_⟩ <;> simp [stepOut, step, onMessage, jsOr, h]

theorem claimC5_witness :
    (stepOut initState (.message 0 (.advertise (some "ABC123")) rand0)).2
      = [(0, ServerMsg.advertising "ABC123")] :=
  (claimC5 initState 0 "ABC123" rand0 (by decide)).1

/-- Claim C8: a location message from a connection whose current advertising
code has no directory entry or an empty subscriber list sends nothing to
anyone, sends no error, and leaves the state unchanged. -/
theorem claimC8 (st : ServerState) (c : Conn) (loc route : String) (rand : Nat → Fin 36)
    (h : st.dir (st.adv c) = none ∨ st.dir (st.adv c) = some []) :
    stepOut st (.message c (.location loc route) rand) = (st, []) := by
  rcases h with h | h <;> simp [stepOut, onMessage, h]

theorem claimC8_witness :
    stepOut initState (.message 0 (.location "l" "r") rand0) = (initState, []) :=
  claimC8 initState 0 "l" "r" rand0 (Or.inl rfl)

/-- Claim C2 as stated is false: closing a connection deletes every directory
entry whose subscriber list is empty after the filter, even an entry that did
not contain the closing connection. Concretely, after connection 0 advertises
code A (entry present, subscriber list empty), closing connection 1 — which
is not in that list — deletes the entry instead of leaving it unchanged. -/
theorem claimC2_counterexample :
    Reachable stA ∧ stA.dir "A" = some []
      ∧ (step stA (.disconnect 1)).dir "A" = none :=
  ⟨⟨_, rfl⟩, by decide, by decide⟩

/-- Claim C2 amended: when a connection closes it is removed from every
code's subscriber list, and an entry is deleted exactly when its subscriber
list is empty after that removal — including an entry that was already empty
before the close; an entry whose filtered list is non-empty survives with
exactly that filtered list, which no longer contains the closed connection. -/
theorem claimC2_amended (st : ServerState) (c : Conn) (code : String) (subs : List Conn)
    (h : st.dir code = some subs) :
    ((step st (.disconnect c)).dir code = none
        ↔ subs.filter (fun s => decide (s ≠ c)) = [])
    ∧ (∀ l, (step st (.disconnect c)).dir code = some l →
        l = subs.filter (fun s => decide (s ≠ c)) ∧ c ∉ l) := by
  have hd : (step st (.disconnect c)).dir code
      = (if subs.filter (fun s => decide (s ≠ c)) = [] then none
         else some (subs.filter (fun s => decide (s ≠ c)))) := by
    simp [step, stepOut, onClose, h]
  constructor
  · rw [hd]
    split
    · exact iff_of_true rfl (by assumption)
    · exact iff_of_false (by simp) (by assumption)
  · intro l hl
    rw [hd] at hl
    split at hl
    · exact absurd hl (by simp)
    · have hle : l = subs.filter (fun s => decide (s ≠ c)) :=
        (Option.some.inj hl).symm
      refine ⟨hle, ?_⟩
      intro hc
      rw [hle] at hc
      have := (List.mem_filter.mp hc).2
      simp at this

theorem claimC2_amended_witness :
    (step stA (.disconnect 1)).dir "A" = none
      ↔ ([] : List Conn).filter (fun s => decide (s ≠ 1)) = [] :=
  (claimC2_amended stA 1 "A" [] (by decide)).1

/-- Claim C4 as stated is false: a connection that subscribes twice to the
same code appears twice in the code's subscriber list. Concretely, after
connection 0 advertises code A and connection 1 subscribes to it twice, the
reachable state's list for A contains connection 1 two times. -/
theorem claimC4_counterexample :
    Reachable stA11 ∧ ((stA11.dir "A").getD []).count 1 = 2 :=
  ⟨⟨_, rfl⟩, by decide⟩

/-- Claim C4 amended: a successful subscribe appends the connection at the
end of the code's subscriber list even when it is already present, so a
connection that subscribes twice to the same code appears at least twice in
the list; connections are not deduplicated. -/
theorem claimC4_amended (st : ServerState) (c2 : Conn) (code : String) (subs : List Conn)
    (rand : Nat → Fin 36) (hne : code ≠ "") (h : st.dir code = some subs) :
    (step st (.message c2 (.subscribe (some code)) rand)).dir code = some (subs ++ [c2])
    ∧ (c2 ∈ subs → 2 ≤ (subs ++ [c2]).count c2) := by
  constructor
  · simp [step, stepOut, onMessage, hne, h]
  · intro hm
    rw [List.count_append]
    have h1 : 0 < subs.count c2 := List.count_pos_iff.mpr hm
    have h2 : ([c2] : List Conn).count c2 = 1 := by simp
    omega

theorem claimC4_amended_witness :
    (step stA1 (.message 1 (.subscribe (some "A")) rand0)).dir "A"
      = some ([1] ++ [1]) :=
  (claimC4_amended stA1 1 "A" [1] rand0 (by decide) (by decide)).1

/-- Claim C6: the code generator called with length n returns a string of
exactly n characters, each drawn from the 36-character alphabet of uppercase
letters and digits; an advertise message with no code is confirmed with the
generated code of default length 6. -/
theorem claimC6 (rand : Nat → Fin 36) (n : Nat) :
    (randomCode rand n).length = n
    ∧ (∀ ch, ch ∈ (randomCode rand n).toList → ch ∈ characters.toList)
    ∧ ∀ (st : ServerState) (c : Conn),
        (stepOut st (.message c (.advertise none) rand)).2
          = [(c, ServerMsg.advertising (randomCode rand 6))] := by
  refine ⟨randomCode_length rand n, ?_, ?_⟩
  · intro ch hch
    have hch' : ch ∈ (List.range n).map
        (fun i => characters.toList.get (Fin.cast charactersLen.symm (rand i))) := hch
    obtain ⟨i, _, hi⟩ := List.mem_map.mp hch'
    rw [← hi]
    exact List.get_mem _ _ _
  · intro st c
    simp [stepOut, onMessage, jsOr]

theorem claimC6_witness :
    'A' ∈ characters.toList :=
  (claimC6 rand0 1).2.1 'A' (by decide)

/-- Claim C9: creating a directory entry on advertise is idempotent — an
existing entry's subscriber list is left unchanged, an absent entry becomes
an empty list — and a subscribe for the advertised code sent afterwards is
answered with a subscribed confirmation. -/
theorem claimC9 (st : ServerState) (c : Conn) (mcode : Option String) (rand : Nat → Fin 36)
    (code : String) (hcode : code = jsOr mcode (randomCode rand 6)) :
    (∀ subs, st.dir code = some subs →
        (step st (.message c (.advertise mcode) rand)).dir code = some subs)
    ∧ (st.dir code = none →
        (step st (.message c (.advertise mcode) rand)).dir code = some [])
    ∧ (∀ (c2 : Conn) (rand2 : Nat → Fin 36),
        (stepOut (step st (.message c (.advertise mcode) rand))
            (.message c2 (.subscribe (some code)) rand2)).2
          = [(c2, ServerMsg.subscribed code)]) := by
  have hne : code ≠ "" := by
    rw [hcode]
    exact jsOr_ne_empty mcode _ (randomCode_ne_empty rand)
  have hdir : (step st (.message c (.advertise mcode) rand)).dir code
      = some ((st.dir code).getD []) := by
    simp [step, stepOut, onMessage, ← hcode]
  refine ⟨?_, ?_, ?_⟩
  · intro subs hs
    rw [hdir, hs]
    rfl
  · intro hs
    rw [hdir, hs]
    rfl
  · intro c2 rand2
    simp [stepOut, onMessage, hne, hdir]

theorem claimC9_witness :
    (step initState (.message 0 (.advertise (some "ABC123")) rand0)).dir "ABC123"
      = some [] :=
  (claimC9 initState 0 (some "ABC123") rand0 "ABC123" (by decide)).2.1 rfl

theorem step_adv (st : ServerState) (c : Conn) (e : Event) :
    (step st e).adv c = advUpd c (st.adv c) e := by
  cases e with
  | connect c2 => rfl
  | disconnect c2 => rfl
  | message c2 m rand =>
      cases m with
      | advertise mcode =>
          simp only [step, stepOut, onMessage, advUpd]
          by_cases h : c = c2
          · simp [h]
          · have h2 : ¬ c2 = c := fun hh => h hh.symm
            simp [h, h2]
      | subscribe mcode =>
          cases mcode with
          | none => rfl
          | some code =>
              by_cases hc : code = ""
              · simp [step, stepOut, onMessage, advUpd, hc]
              · cases hd : st.dir code with
                | none => simp [step, stepOut, onMessage, advUpd, hc, hd]
                | some subs => simp [step, stepOut, onMessage, advUpd, hc, hd]
      | location l r => rfl
      | other => rfl

theorem run_adv_foldl (es : List Event) :
    ∀ (st : ServerState) (c : Conn),
      (es.foldl step st).adv c = es.foldl (advUpd c) (st.adv c) := by
  induction es with
  | nil => intro st c; rfl
  | cons e es ih =>
      intro st c
      rw [List.foldl_cons, List.foldl_cons, ih, step_adv]

/-- Claim C7: a connection's advertising code is always the resolved code of
the most recent advertise message processed on that connection (the empty
string before any), and a location message from that connection is broadcast
exactly to the subscriber list held under that most recent code. -/
theorem claimC7 (es : List Event) (conn : Conn) (loc route : String) (rand : Nat → Fin 36) :
    (run es).adv conn = lastAdvCode conn es
    ∧ (stepOut (run es) (.message conn (.location loc route) rand)).2
      = ((((run es).dir (lastAdvCode conn es)).getD []).filter (fun s => decide (s ≠ conn))).map
          (fun s => (s, ServerMsg.location loc route)) := by
  have h1 : (run es).adv conn = lastAdvCode conn es := by
    rw [run, run_adv_foldl]
    rfl
  refine ⟨h1, ?_⟩
  simp [stepOut, onMessage, h1]

theorem step_dir_empty (st : ServerState) (e : Event) (h : st.dir "" = none) :
    (step st e).dir "" = none := by
  cases e with
  | connect c => exact h
  | disconnect c => simp [step, stepOut, onClose, h]
  | message c m rand =>
      cases m with
      | advertise mcode =>
          have hne : jsOr mcode (randomCode rand 6) ≠ "" :=
            jsOr_ne_empty _ _ (randomCode_ne_empty rand)
          have hne' : ("" : String) ≠ jsOr mcode (randomCode rand 6) :=
            fun hh => hne hh.symm
          simp [step, stepOut, onMessage, hne', h]
      | subscribe mcode =>
          cases mcode with
          | none => exact h
          | some code =>
              by_cases hc : code = ""
              · simpa [step, stepOut, onMessage, hc] using h
              · cases hd : st.dir code with
                | none => simpa [step, stepOut, onMessage, hc, hd] using h
                | some subs =>
                    have hcc : ("" : String) ≠ code := fun hh => hc hh.symm
                    simp [step, stepOut, onMessage, hc, hd, hcc, h]
      | location l r => exact h
      | other => exact h

theorem run_dir_empty_aux (es : List Event) :
    ∀ st : ServerState, st.dir "" = none → (es.foldl step st).dir "" = none := by
  induction es with
  | nil => intro st h; exact h
  | cons e es ih =>
      intro st h
      rw [List.foldl_cons]
      exact ih _ (step_dir_empty st e h)

theorem run_dir_empty (es : List Event) : (run es).dir "" = none :=
  run_dir_empty_aux es initState rfl

theorem subscribe_no_new_key (st : ServerState) (c : Conn) (mcode : Option String)
    (rand : Nat → Fin 36) (k : String) (h : st.dir k = none) :
    (step st (.message c (.subscribe mcode) rand)).dir k = none := by
  cases mcode with
  | none => exact h
  | some code =>
      by_cases hc : code = ""
      · simpa [step, stepOut, onMessage, hc] using h
      · cases hd : st.dir code with
        | none => simpa [step, stepOut, onMessage, hc, hd] using h
        | some subs =>
            have hk : k ≠ code := by
              intro hh
              rw [hh, hd] at h
              exact Option.noConfusion h
            simp [step, stepOut, onMessage, hc, hd, hk, h]

/-- Claim C10: in every reachable state the empty string is not a directory
key (keys are only ever created by advertise, which always resolves a
non-empty code), subscribe and location and close never create entries, and
a location message from a connection whose advertising code is still the
initial empty string is a no-op delivering nothing. -/
theorem claimC10 (st : ServerState) (h : Reachable st) :
    st.dir "" = none
    ∧ (∀ (c : Conn) (loc route : String) (rand : Nat → Fin 36), st.adv c = "" →
        stepOut st (.message c (.location loc route) rand) = (st, []))
    ∧ (∀ (c : Conn) (mcode : Option String) (rand : Nat → Fin 36) (k : String),
        st.dir k = none → (step st (.message c (.subscribe mcode) rand)).dir k = none)
    ∧ (∀ (c : Conn) (loc route : String) (rand : Nat → Fin 36) (k : String),
        st.dir k = none → (step st (.message c (.location loc route) rand)).dir k = none)
    ∧ (∀ (c : Conn) (k : String), st.dir k = none →
        (step st (.disconnect c)).dir k = none) := by
  obtain ⟨es, hes⟩ := h
  have h0 : st.dir "" = none := by
    rw [← hes]
    exact run_dir_empty es
  refine ⟨h0, ?_, ?_, ?_, ?_⟩
  · intro c loc route rand hadv
    simp [stepOut, onMessage, hadv, h0]
  · intro c mcode rand k hk
    exact subscribe_no_new_key st c mcode rand k hk
  · intro c loc route rand k hk
    simpa [step, stepOut, onMessage] using hk
  · intro c k hk
    simp [step, stepOut, onClose, hk]

theorem claimC10_witness :
    (run []).dir "" = none :=
  (claimC10 (run []) ⟨[], rfl⟩).1
